import Mathlib

/-
Verification development for the singleton component of the design-patterns
repository (src/singleton/logger.hpp, src/singleton/logger.cpp,
src/singleton/user.cpp).

The core under study is `Logger::getLogger` (logger.cpp lines 15-25):

    Logger *Logger::getLogger() {
      // double-checked lock
      if (loggerInstance == nullptr) {
        mtx.lock();
        if (loggerInstance == nullptr) {
          loggerInstance = new Logger();
        }
        mtx.unlock();
      }
      return loggerInstance;
    }

together with the constructor `Logger::Logger` (prints "New instance created."
plus a line break, logger.cpp lines 8-11) and `Logger::Log` (prints the message
plus a line break, logger.cpp line 13).

Several semantic levels of the same code are embedded below:

1. An interleaving (sequentially consistent) multi-thread model: each thread
   runs the body of `getLogger` as a small program counter machine, the globals
   `loggerInstance` (the slot), `mtx` (the lock) and the standard-output
   channel live in a shared state, and a step relation interleaves the
   threads. Logger instances are identified by a construction counter, so
   pointer identity becomes equality of those identifiers.
2. A single-thread functional model of one `getLogger` call, for the purely
   sequential output claims.
3. A weak-memory model of the publication in `loggerInstance = new Logger()`
   against the unlocked fast-path read: since `loggerInstance` is a plain
   (non-atomic) `Logger *` (logger.hpp line 10) and the fast-path read takes
   no lock, the constructor's writes and the pointer store are plain stores
   with no release/acquire pairing, so they may become visible to the
   fast-path reader in either order.  The model makes each store's
   propagation to the reader a separate step.
4. A character-interleaving model of the shared output channel for two
   concurrent `Log` calls: C++ serialises concurrent `std::cout` insertions
   only at character granularity, so the observable outputs are exactly the
   shuffles of the two emitted character sequences.
-/

namespace Singleton

/-- Characters emitted by the constructor `Logger::Logger`
(logger.cpp lines 8-11): `cout << "New instance created." << "\n"`. -/
def createdOut : List Char := "New instance created.".data ++ ['\n']

/-- Program counter of one thread executing the body of `Logger::getLogger`
(logger.cpp lines 15-25).  `fastCheck` is the unlocked `if (loggerInstance ==
nullptr)`, `acquire` is `mtx.lock()`, `doubleCheck` the locked re-check,
`construct` the statement `loggerInstance = new Logger()` (which may fail when
the constructor throws), `release` is `mtx.unlock()`, `ret` the final
`return loggerInstance`, `done r` a returned call with result `r`, and
`failed` a call terminated by an exception escaping from the constructor. -/
inductive TState
  | fastCheck
  | acquire
  | doubleCheck
  | construct
  | release
  | ret
  | done (r : Option Nat)
  | failed
deriving DecidableEq

/-- Shared state of the process: the static pointer `Logger::loggerInstance`
(`none` is `nullptr`, `some v` a pointer to the instance with identity `v`),
the mutex `Logger::mtx` (`some i` when thread `i` holds it), how many times the
`Logger` constructor has completed (instance `k` gets identity `k`), the
characters written to standard output, and the program counter of each
thread. -/
structure GState where
  slot : Option Nat
  lockHolder : Option Nat
  constructions : Nat
  output : List Char
  threads : List TState
deriving DecidableEq

/-- One step of thread `i` in `Logger::getLogger`, under a sequentially
consistent interleaving semantics.  `failAt i = true` means thread `i`'s
`new Logger()` throws: the exception propagates out of `getLogger`, so the
thread terminates without executing `mtx.unlock()` (the source uses bare
`lock`/`unlock`, lines 18 and 23, with no RAII guard).  `none` means thread
`i` cannot step (blocked on the mutex, out of range, or terminated). -/
def threadStep (failAt : Nat → Bool) (g : GState) (i : Nat) : Option GState :=
  match g.threads[i]? with
  | Option.none => none
  | Option.some t =>
    match t with
    | TState.fastCheck =>
        some { g with threads :=
          g.threads.set i (if g.slot.isSome then TState.ret else TState.acquire) }
    | TState.acquire =>
        match g.lockHolder with
        | Option.none =>
            some { g with lockHolder := some i,
                          threads := g.threads.set i TState.doubleCheck }
        | Option.some _ => none
    | TState.doubleCheck =>
        some { g with threads :=
          g.threads.set i (if g.slot.isSome then TState.release else TState.construct) }
    | TState.construct =>
        if failAt i then
          some { g with threads := g.threads.set i TState.failed }
        else
          some { g with slot := some g.constructions,
                        constructions := g.constructions + 1,
                        output := g.output ++ createdOut,
                        threads := g.threads.set i TState.release }
    | TState.release =>
        some { g with lockHolder := none, threads := g.threads.set i TState.ret }
    | TState.ret =>
        some { g with threads := g.threads.set i (TState.done g.slot) }
    | TState.done _ => none
    | TState.failed => none

/-- The interleaved step relation: some thread takes a step. -/
def Step (failAt : Nat → Bool) (g g' : GState) : Prop :=
  ∃ i, threadStep failAt g i = some g'

/-- Failure behaviour of the actual source: `new Logger()` never throws in the
demo, so no thread's construction fails. -/
def noFail : Nat → Bool := fun _ => false

/-- Initial state of the process with `n` threads about to call
`Logger::getLogger`: `loggerInstance = nullptr` (logger.cpp line 5), the mutex
free, nothing constructed, nothing printed. -/
def initState (n : Nat) : GState :=
  { slot := none
    lockHolder := none
    constructions := 0
    output := []
    threads := List.replicate n TState.fastCheck }

/-- Reachability from the `n`-thread initial state when construction never
fails. -/
def Reachable (n : Nat) (g : GState) : Prop :=
  Relation.ReflTransGen (Step noFail) (initState n) g

/-- Every thread has returned from `getLogger`. -/
def AllDone (g : GState) : Prop :=
  ∀ (j : Nat) (t : TState), g.threads[j]? = some t → ∃ r, t = TState.done r

/-- Rank of a thread's program counter; every step of a thread strictly
decreases its rank, so executions terminate. -/
def rank : TState → Nat
  | TState.fastCheck => 6
  | TState.acquire => 5
  | TState.doubleCheck => 4
  | TState.construct => 3
  | TState.release => 2
  | TState.ret => 1
  | TState.done _ => 0
  | TState.failed => 0

/-- Termination measure of a global state: the sum of all thread ranks. -/
def rankSum (g : GState) : Nat :=
  (g.threads.map rank).sum

/-- Program counters a thread can only occupy while holding the mutex. -/
def holdsLock : TState → Bool
  | TState.doubleCheck => true
  | TState.construct => true
  | TState.release => true
  | _ => false

/-- Inductive invariant of the interleaving model (no-failure behaviour),
relating the mutex, the slot, the construction counter, the output and the
thread program counters. -/
structure Inv (n : Nat) (g : GState) : Prop where
  tlen : g.threads.length = n
  lock_owner : ∀ j : Nat, g.lockHolder = some j →
    ∃ t, g.threads[j]? = some t ∧ holdsLock t = true
  owner_lock : ∀ (j : Nat) (t : TState), g.threads[j]? = some t →
    holdsLock t = true → g.lockHolder = some j
  construct_empty : ∀ j : Nat, g.threads[j]? = some TState.construct → g.slot = none
  slot_zero : ∀ v : Nat, g.slot = some v → v = 0
  count_none : g.slot = none → g.constructions = 0
  count_some : g.slot.isSome = true → g.constructions = 1
  out_spec : g.output = if g.constructions = 0 then [] else createdOut
  release_some : ∀ j : Nat, g.threads[j]? = some TState.release → g.slot.isSome = true
  ret_some : ∀ j : Nat, g.threads[j]? = some TState.ret → g.slot.isSome = true
  done_slot : ∀ (j : Nat) (r : Option Nat), g.threads[j]? = some (TState.done r) →
    r = g.slot ∧ r.isSome = true
  no_failed : ∀ j : Nat, g.threads[j]? = some TState.failed → False

/-- A state with one caller holding the mutex at the double check while the
slot already holds instance 0 (another caller constructed it earlier). -/
def dcState : GState := ⟨some 0, some 0, 1, createdOut, [TState.doubleCheck]⟩

/-- A state with the slot already holding instance 0, thread 0 entering
`getLogger` at the fast check while some other thread holds the mutex. -/
def fcState : GState := ⟨some 0, some 1, 1, createdOut, [TState.fastCheck]⟩

/-- Failure behaviour where thread 0's `new Logger()` throws. -/
def failAtZero : Nat → Bool := fun i => i == 0

/-- Two-thread failure run: thread 0 past the fast check. -/
def fs1 : GState := ⟨none, none, 0, [], [TState.acquire, TState.fastCheck]⟩

/-- Thread 0 holds the mutex. -/
def fs2 : GState := ⟨none, some 0, 0, [], [TState.doubleCheck, TState.fastCheck]⟩

/-- Thread 0 past the double check, about to construct. -/
def fs3 : GState := ⟨none, some 0, 0, [], [TState.construct, TState.fastCheck]⟩

/-- Thread 0's constructor threw: the exception escaped `getLogger` without
running `mtx.unlock()`, so the mutex is still held by thread 0. -/
def fs4 : GState := ⟨none, some 0, 0, [], [TState.failed, TState.fastCheck]⟩

/-- Thread 1 took the slow path and is now blocked on the abandoned mutex:
no thread can ever step again. -/
def fs5 : GState := ⟨none, some 0, 0, [], [TState.failed, TState.acquire]⟩

/-- Sequential (single-thread) state for one `getLogger` call: the static
slot, the construction counter and the characters printed so far. -/
structure SState where
  slot : Option Nat
  constructions : Nat
  output : List Char
deriving DecidableEq

/-- Single-thread functional semantics of one call to `Logger::getLogger`
(logger.cpp lines 15-25): the unlocked check, then (with no interleaving
possible) the locked double check, the construction `loggerInstance = new
Logger()` — which appends the constructor's output — and finally
`return loggerInstance`. -/
def getLoggerFn (s : SState) : SState × Option Nat :=
  let s1 :=
    if s.slot = none then
      -- mtx.lock()
      let s2 :=
        if s.slot = none then
          { slot := some s.constructions
            constructions := s.constructions + 1
            output := s.output ++ createdOut : SState }
        else s
      -- mtx.unlock()
      s2
    else s
  (s1, s1.slot)

/-- Characters emitted by one call `Logger::Log(m)` (logger.cpp line 13):
`cout << message << "\n"`. -/
def logChars (m : String) : List Char := m.data ++ ['\n']

/-- The output channel receives the emitted characters one at a time (C++
serialises concurrent `std::cout` insertions only per character). -/
def emitRun (cs : List Char) (channel : List Char) : List Char :=
  cs.foldl (fun acc c => acc ++ [c]) channel

/-- Functional semantics of `Logger::Log(m)` run in isolation on the output
channel: it emits the characters of `m` then a line break, and returns
nothing (`void`). -/
def LogFn (m : String) (channel : List Char) : List Char × Unit :=
  (emitRun (logChars m) channel, ())

/-- Admissible outputs of the unsynchronised channel: `isShuffle as bs out`
holds when `out` is an interleaving of the two
character streams `as` and `bs`: every character of `out` comes from the head
of one of the streams, each stream's characters keeping their order.  These
are exactly the outputs the unsynchronised shared channel can produce when
two threads emit `as` and `bs` concurrently. -/
def isShuffle : List Char → List Char → List Char → Bool
  | as, bs, [] => as.isEmpty && bs.isEmpty
  | as, bs, c :: cs =>
      (match as with
       | a :: as2 => a == c && isShuffle as2 bs cs
       | [] => false)
      ||
      (match bs with
       | b :: bs2 => b == c && isShuffle as bs2 cs
       | [] => false)

/-- Holds when `xs` starts with the characters `pat`. -/
def leadsWith : List Char → List Char → Bool
  | [], _ => true
  | _ :: _, [] => false
  | a :: as, b :: bs => a == b && leadsWith as bs

/-- Holds when `pat` occurs contiguously inside `xs`
(the message appears "intact", not interleaved mid-word). -/
def hasSeg (pat : List Char) : List Char → Bool
  | [] => leadsWith pat []
  | x :: xs => leadsWith pat (x :: xs) || hasSeg pat xs

/-- The message emitted by the first thread in src/singleton/user.cpp. -/
def msg1 : String := "message from user1"

/-- The message emitted by the second thread in src/singleton/user.cpp. -/
def msg2 : String := "message from user2"

/-- A concrete interleaving of the two concurrent `Log` calls: the first
thread emits only its leading 'm', then the second thread's whole output
runs, then the rest of the first thread's output. -/
def badOut : List Char := 'm' :: (logChars msg2 ++ "essage from user1\n".data)

/-- Actions of the weak-memory model of the publication in
`loggerInstance = new Logger()` racing the unlocked fast-path read.
`runCtor` is the writer completing the constructor's effects, `storePtr` its
plain store to `loggerInstance`, `propInit` and `propPtr` the independent
propagation of each plain store to the reading thread (no release/acquire
pairing orders them, since `loggerInstance` is a plain `Logger *` and the
fast-path read takes no lock), and `readFast` the reader's unlocked
`if (loggerInstance == nullptr)` followed by its use of the object. -/
inductive WAction
  | runCtor
  | storePtr
  | propInit
  | propPtr
  | readFast
deriving DecidableEq

/-- Weak-memory state: which of the two writer stores have been issued, which
are visible to the reader, the writer's program position (0: before the
constructor, 1: between constructor and pointer store, 2: done), and the
reader's observation — `some b` once the reader saw a non-null slot, with `b`
recording whether the constructor's effects were visible to it then. -/
structure WState where
  initIssued : Bool
  initVisible : Bool
  ptrIssued : Bool
  ptrVisible : Bool
  writerPC : Nat
  readerObs : Option Bool
deriving DecidableEq

/-- One step of the weak-memory model. -/
def wStep (s : WState) : WAction → Option WState
  | WAction.runCtor =>
      if s.writerPC = 0 then some { s with initIssued := true, writerPC := 1 } else none
  | WAction.storePtr =>
      if s.writerPC = 1 then some { s with ptrIssued := true, writerPC := 2 } else none
  | WAction.propInit =>
      if s.initIssued then some { s with initVisible := true } else none
  | WAction.propPtr =>
      if s.ptrIssued then some { s with ptrVisible := true } else none
  | WAction.readFast =>
      if s.ptrVisible && s.readerObs.isNone then
        some { s with readerObs := some s.initVisible }
      else none

/-- Run a sequence of weak-memory actions; `none` when one is not enabled. -/
def runW (s : WState) (acts : List WAction) : Option WState :=
  acts.foldlM wStep s

/-- Initial weak-memory state: nothing issued, nothing visible, writer about
to run the constructor, reader yet to observe a non-null slot. -/
def wInit : WState := ⟨false, false, false, false, 0, none⟩

/-- The execution in which the pointer store propagates to the reader before
the constructor's effects do. -/
def wBadTrace : List WAction :=
  [WAction.runCtor, WAction.storePtr, WAction.propPtr, WAction.readFast]

/-- Final state of that execution: the reader observed a non-null
`loggerInstance` while the constructor's effects were not yet visible. -/
def wBadFinal : WState := ⟨true, false, true, true, 2, some false⟩

/-- Two-thread run, step 1: thread 0 past the fast check. -/
def ws1 : GState := ⟨none, none, 0, [], [TState.acquire, TState.fastCheck]⟩

/-- Step 2: thread 0 holds the mutex. -/
def ws2 : GState := ⟨none, some 0, 0, [], [TState.doubleCheck, TState.fastCheck]⟩

/-- Step 3: thread 0 past the double check. -/
def ws3 : GState := ⟨none, some 0, 0, [], [TState.construct, TState.fastCheck]⟩

/-- Step 4: thread 0 constructed instance 0. -/
def ws4 : GState := ⟨some 0, some 0, 1, createdOut, [TState.release, TState.fastCheck]⟩

/-- Step 5: thread 0 released the mutex. -/
def ws5 : GState := ⟨some 0, none, 1, createdOut, [TState.ret, TState.fastCheck]⟩

/-- Step 6: thread 0 returned instance 0. -/
def ws6 : GState := ⟨some 0, none, 1, createdOut, [TState.done (some 0), TState.fastCheck]⟩

/-- Step 7: thread 1 took the fast path (slot non-null). -/
def ws7 : GState := ⟨some 0, none, 1, createdOut, [TState.done (some 0), TState.ret]⟩

/-- Step 8: thread 1 also returned instance 0. -/
def ws8 : GState := ⟨some 0, none, 1, createdOut, [TState.done (some 0), TState.done (some 0)]⟩

/-- Reachability under the behaviour where thread 0's constructor throws. -/
def ReachableF (g : GState) : Prop :=
  Relation.ReflTransGen (Step failAtZero) (initState 2) g

/-- The process-start state of the sequential model: `loggerInstance =
nullptr`, nothing constructed, nothing printed. -/
def sInit : SState := ⟨none, 0, []⟩

theorem lt_of_lookup (l : List TState) (i : Nat) (t : TState) (h : l[i]? = some t) :
    i < l.length := by
  by_contra hc
  rw [List.getElem?_eq_none (Nat.le_of_not_lt hc)] at h
  exact Option.noConfusion h

theorem lookup_set (l : List TState) (i j : Nat) (a : TState) (hi : i < l.length) :
    (l.set i a)[j]? = if j = i then some a else l[j]? := by
  by_cases h : j = i
  · subst h; rw [if_pos rfl]; exact List.getElem?_set_self hi
  · rw [if_neg h]; exact List.getElem?_set_ne (fun he => h he.symm)

theorem lookup_set_cases {l : List TState} {i j : Nat} {a t : TState} (hi : i < l.length)
    (h : (l.set i a)[j]? = some t) : (j = i ∧ a = t) ∨ (j ≠ i ∧ l[j]? = some t) := by
  rw [lookup_set l i j a hi] at h
  by_cases hj : j = i
  · rw [if_pos hj] at h
    exact Or.inl ⟨hj, Option.some.inj h⟩
  · rw [if_neg hj] at h
    exact Or.inr ⟨hj, h⟩

theorem lookup_set_other {l : List TState} {i j : Nat} (a : TState) (hi : i < l.length)
    (hji : j ≠ i) : (l.set i a)[j]? = l[j]? := by
  rw [lookup_set l i j a hi, if_neg hji]

theorem lookup_set_self {l : List TState} {i : Nat} (a : TState) (hi : i < l.length) :
    (l.set i a)[i]? = some a := by
  rw [lookup_set l i i a hi, if_pos rfl]

theorem inv_step {n : Nat} {g g' : GState} (hinv : Inv n g) (hst : Step noFail g g') :
    Inv n g' := by
  obtain ⟨i, hstep⟩ := hst
  unfold threadStep at hstep
  cases ht : g.threads[i]? with
  | none => rw [ht] at hstep; exact Option.noConfusion hstep
  | some t =>
    rw [ht] at hstep
    have hi : i < g.threads.length := lt_of_lookup _ _ _ ht
    cases t with
    | fastCheck =>
      injection hstep with hstep
      subst hstep
      by_cases hs : g.slot.isSome = true
      case neg =>
        rw [if_neg hs]
        have hs0 : g.slot = none := Option.not_isSome_iff_eq_none.mp hs
        refine ⟨?_, ?_, ?_, ?_, ?_, ?_, ?_, ?_, ?_, ?_, ?_, ?_⟩
        · show (g.threads.set i TState.acquire).length = n
          rw [List.length_set]; exact hinv.tlen
        · intro j hLj
          obtain ⟨t0, hjt0, hh⟩ := hinv.lock_owner j hLj
          by_cases hji : j = i
          · subst hji
            cases Option.some.inj (ht.symm.trans hjt0)
            exact Bool.noConfusion hh
          · exact ⟨t0, (lookup_set_other TState.acquire hi hji).trans hjt0, hh⟩
        · intro j t' hj hh
          rcases lookup_set_cases hi
            (show (g.threads.set i TState.acquire)[j]? = some t' from hj) with
            ⟨hji, hta⟩ | ⟨hji, hold⟩
          · rw [← hta] at hh; exact Bool.noConfusion hh
          · exact hinv.owner_lock j t' hold hh
        · intro j hj
          exact hs0
        · intro v hv
          exact Option.noConfusion (hs0.symm.trans hv)
        · intro _
          exact hinv.count_none hs0
        · intro hsm
          exact absurd hsm hs
        · exact hinv.out_spec
        · intro j hj
          rcases lookup_set_cases hi
            (show (g.threads.set i TState.acquire)[j]? = some TState.release from hj) with
            ⟨hji, hta⟩ | ⟨hji, hold⟩
          · exact TState.noConfusion hta
          · exact hinv.release_some j hold
        · intro j hj
          rcases lookup_set_cases hi
            (show (g.threads.set i TState.acquire)[j]? = some TState.ret from hj) with
            ⟨hji, hta⟩ | ⟨hji, hold⟩
          · exact TState.noConfusion hta
          · exact hinv.ret_some j hold
        · intro j r hj
          rcases lookup_set_cases hi
            (show (g.threads.set i TState.acquire)[j]? = some (TState.done r) from hj) with
            ⟨hji, hta⟩ | ⟨hji, hold⟩
          · exact TState.noConfusion hta
          · exact hinv.done_slot j r hold
        · intro j hj
          rcases lookup_set_cases hi
            (show (g.threads.set i TState.acquire)[j]? = some TState.failed from hj) with
            ⟨hji, hta⟩ | ⟨hji, hold⟩
          · exact TState.noConfusion hta
          · exact hinv.no_failed j hold
      case pos =>
        rw [if_pos hs]
        refine ⟨?_, ?_, ?_, ?_, ?_, ?_, ?_, ?_, ?_, ?_, ?_, ?_⟩
        · show (g.threads.set i TState.ret).length = n
          rw [List.length_set]; exact hinv.tlen
        · intro j hLj
          obtain ⟨t0, hjt0, hh⟩ := hinv.lock_owner j hLj
          by_cases hji : j = i
          · subst hji
            cases Option.some.inj (ht.symm.trans hjt0)
            exact Bool.noConfusion hh
          · exact ⟨t0, (lookup_set_other TState.ret hi hji).trans hjt0, hh⟩
        · intro j t' hj hh
          rcases lookup_set_cases hi
            (show (g.threads.set i TState.ret)[j]? = some t' from hj) with
            ⟨hji, hta⟩ | ⟨hji, hold⟩
          · rw [← hta] at hh; exact Bool.noConfusion hh
          · exact hinv.owner_lock j t' hold hh
        · intro j hj
          rcases lookup_set_cases hi
            (show (g.threads.set i TState.ret)[j]? = some TState.construct from hj) with
            ⟨hji, hta⟩ | ⟨hji, hold⟩
          · exact TState.noConfusion hta
          · exact hinv.construct_empty j hold
        · intro v hv
          exact hinv.slot_zero v hv
        · intro h
          exact hinv.count_none h
        · intro h
          exact hinv.count_some h
        · exact hinv.out_spec
        · intro j hj
          rcases lookup_set_cases hi
            (show (g.threads.set i TState.ret)[j]? = some TState.release from hj) with
            ⟨hji, hta⟩ | ⟨hji, hold⟩
          · exact TState.noConfusion hta
          · exact hinv.release_some j hold
        · intro j hj
          rcases lookup_set_cases hi
            (show (g.threads.set i TState.ret)[j]? = some TState.ret from hj) with
            ⟨hji, hta⟩ | ⟨hji, hold⟩
          · exact hs
          · exact hinv.ret_some j hold
        · intro j r hj
          rcases lookup_set_cases hi
            (show (g.threads.set i TState.ret)[j]? = some (TState.done r) from hj) with
            ⟨hji, hta⟩ | ⟨hji, hold⟩
          · exact TState.noConfusion hta
          · exact hinv.done_slot j r hold
        · intro j hj
          rcases lookup_set_cases hi
            (show (g.threads.set i TState.ret)[j]? = some TState.failed from hj) with
            ⟨hji, hta⟩ | ⟨hji, hold⟩
          · exact TState.noConfusion hta
          · exact hinv.no_failed j hold
    | acquire =>
      cases hl : g.lockHolder with
      | some k =>
        rw [hl] at hstep
        exact Option.noConfusion hstep
      | none =>
        rw [hl] at hstep
        injection hstep with hstep
        subst hstep
        refine ⟨?_, ?_, ?_, ?_, ?_, ?_, ?_, ?_, ?_, ?_, ?_, ?_⟩
        · show (g.threads.set i TState.doubleCheck).length = n
          rw [List.length_set]; exact hinv.tlen
        · intro j hLj
          cases Option.some.inj hLj
          exact ⟨TState.doubleCheck, lookup_set_self TState.doubleCheck hi, rfl⟩
        · intro j t' hj hh
          rcases lookup_set_cases hi
            (show (g.threads.set i TState.doubleCheck)[j]? = some t' from hj) with
            ⟨hji, hta⟩ | ⟨hji, hold⟩
          · show some i = some j
            rw [hji]
          · have hcon := hinv.owner_lock j t' hold hh
            rw [hl] at hcon
            exact Option.noConfusion hcon
        · intro j hj
          rcases lookup_set_cases hi
            (show (g.threads.set i TState.doubleCheck)[j]? = some TState.construct from hj) with
            ⟨hji, hta⟩ | ⟨hji, hold⟩
          · exact TState.noConfusion hta
          · exact hinv.construct_empty j hold
        · intro v hv
          exact hinv.slot_zero v hv
        · intro h
          exact hinv.count_none h
        · intro h
          exact hinv.count_some h
        · exact hinv.out_spec
        · intro j hj
          rcases lookup_set_cases hi
            (show (g.threads.set i TState.doubleCheck)[j]? = some TState.release from hj) with
            ⟨hji, hta⟩ | ⟨hji, hold⟩
          · exact TState.noConfusion hta
          · exact hinv.release_some j hold
        · intro j hj
          rcases lookup_set_cases hi
            (show (g.threads.set i TState.doubleCheck)[j]? = some TState.ret from hj) with
            ⟨hji, hta⟩ | ⟨hji, hold⟩
          · exact TState.noConfusion hta
          · exact hinv.ret_some j hold
        · intro j r hj
          rcases lookup_set_cases hi
            (show (g.threads.set i TState.doubleCheck)[j]? = some (TState.done r) from hj) with
            ⟨hji, hta⟩ | ⟨hji, hold⟩
          · exact TState.noConfusion hta
          · exact hinv.done_slot j r hold
        · intro j hj
          rcases lookup_set_cases hi
            (show (g.threads.set i TState.doubleCheck)[j]? = some TState.failed from hj) with
            ⟨hji, hta⟩ | ⟨hji, hold⟩
          · exact TState.noConfusion hta
          · exact hinv.no_failed j hold
    | doubleCheck =>
      injection hstep with hstep
      subst hstep
      by_cases hs : g.slot.isSome = true
      case neg =>
        rw [if_neg hs]
        have hs0 : g.slot = none := Option.not_isSome_iff_eq_none.mp hs
        refine ⟨?_, ?_, ?_, ?_, ?_, ?_, ?_, ?_, ?_, ?_, ?_, ?_⟩
        · show (g.threads.set i TState.construct).length = n
          rw [List.length_set]; exact hinv.tlen
        · intro j hLj
          obtain ⟨t0, hjt0, hh⟩ := hinv.lock_owner j hLj
          by_cases hji : j = i
          · subst hji
            exact ⟨TState.construct, lookup_set_self TState.construct hi, rfl⟩
          · exact ⟨t0, (lookup_set_other TState.construct hi hji).trans hjt0, hh⟩
        · intro j t' hj hh
          rcases lookup_set_cases hi
            (show (g.threads.set i TState.construct)[j]? = some t' from hj) with
            ⟨hji, hta⟩ | ⟨hji, hold⟩
          · show g.lockHolder = some j
            rw [hji]
            exact hinv.owner_lock i TState.doubleCheck ht rfl
          · exact hinv.owner_lock j t' hold hh
        · intro j hj
          exact hs0
        · intro v hv
          exact Option.noConfusion (hs0.symm.trans hv)
        · intro _
          exact hinv.count_none hs0
        · intro hsm
          exact absurd hsm hs
        · exact hinv.out_spec
        · intro j hj
          rcases lookup_set_cases hi
            (show (g.threads.set i TState.construct)[j]? = some TState.release from hj) with
            ⟨hji, hta⟩ | ⟨hji, hold⟩
          · exact TState.noConfusion hta
          · exact hinv.release_some j hold
        · intro j hj
          rcases lookup_set_cases hi
            (show (g.threads.set i TState.construct)[j]? = some TState.ret from hj) with
            ⟨hji, hta⟩ | ⟨hji, hold⟩
          · exact TState.noConfusion hta
          · exact hinv.ret_some j hold
        · intro j r hj
          rcases lookup_set_cases hi
            (show (g.threads.set i TState.construct)[j]? = some (TState.done r) from hj) with
            ⟨hji, hta⟩ | ⟨hji, hold⟩
          · exact TState.noConfusion hta
          · exact hinv.done_slot j r hold
        · intro j hj
          rcases lookup_set_cases hi
            (show (g.threads.set i TState.construct)[j]? = some TState.failed from hj) with
            ⟨hji, hta⟩ | ⟨hji, hold⟩
          · exact TState.noConfusion hta
          · exact hinv.no_failed j hold
      case pos =>
        rw [if_pos hs]
        refine ⟨?_, ?_, ?_, ?_, ?_, ?_, ?_, ?_, ?_, ?_, ?_, ?_⟩
        · show (g.threads.set i TState.release).length = n
          rw [List.length_set]; exact hinv.tlen
        · intro j hLj
          obtain ⟨t0, hjt0, hh⟩ := hinv.lock_owner j hLj
          by_cases hji : j = i
          · subst hji
            exact ⟨TState.release, lookup_set_self TState.release hi, rfl⟩
          · exact ⟨t0, (lookup_set_other TState.release hi hji).trans hjt0, hh⟩
        · intro j t' hj hh
          rcases lookup_set_cases hi
            (show (g.threads.set i TState.release)[j]? = some t' from hj) with
            ⟨hji, hta⟩ | ⟨hji, hold⟩
          · show g.lockHolder = some j
            rw [hji]
            exact hinv.owner_lock i TState.doubleCheck ht rfl
          · exact hinv.owner_lock j t' hold hh
        · intro j hj
          rcases lookup_set_cases hi
            (show (g.threads.set i TState.release)[j]? = some TState.construct from hj) with
            ⟨hji, hta⟩ | ⟨hji, hold⟩
          · exact TState.noConfusion hta
          · exact hinv.construct_empty j hold
        · intro v hv
          exact hinv.slot_zero v hv
        · intro h
          exact hinv.count_none h
        · intro h
          exact hinv.count_some h
        · exact hinv.out_spec
        · intro j hj
          rcases lookup_set_cases hi
            (show (g.threads.set i TState.release)[j]? = some TState.release from hj) with
            ⟨hji, hta⟩ | ⟨hji, hold⟩
          · exact hs
          · exact hinv.release_some j hold
        · intro j hj
          rcases lookup_set_cases hi
            (show (g.threads.set i TState.release)[j]? = some TState.ret from hj) with
            ⟨hji, hta⟩ | ⟨hji, hold⟩
          · exact TState.noConfusion hta
          · exact hinv.ret_some j hold
        · intro j r hj
          rcases lookup_set_cases hi
            (show (g.threads.set i TState.release)[j]? = some (TState.done r) from hj) with
            ⟨hji, hta⟩ | ⟨hji, hold⟩
          · exact TState.noConfusion hta
          · exact hinv.done_slot j r hold
        · intro j hj
          rcases lookup_set_cases hi
            (show (g.threads.set i TState.release)[j]? = some TState.failed from hj) with
            ⟨hji, hta⟩ | ⟨hji, hold⟩
          · exact TState.noConfusion hta
          · exact hinv.no_failed j hold
    | construct =>
      rw [if_neg (fun h : noFail i = true => Bool.noConfusion h)] at hstep
      injection hstep with hstep
      subst hstep
      have hsl : g.slot = none := hinv.construct_empty i ht
      have hc0 : g.constructions = 0 := hinv.count_none hsl
      refine ⟨?_, ?_, ?_, ?_, ?_, ?_, ?_, ?_, ?_, ?_, ?_, ?_⟩
      · show (g.threads.set i TState.release).length = n
        rw [List.length_set]; exact hinv.tlen
      · intro j hLj
        obtain ⟨t0, hjt0, hh⟩ := hinv.lock_owner j hLj
        by_cases hji : j = i
        · subst hji
          exact ⟨TState.release, lookup_set_self TState.release hi, rfl⟩
        · exact ⟨t0, (lookup_set_other TState.release hi hji).trans hjt0, hh⟩
      · intro j t' hj hh
        rcases lookup_set_cases hi
          (show (g.threads.set i TState.release)[j]? = some t' from hj) with
          ⟨hji, hta⟩ | ⟨hji, hold⟩
        · show g.lockHolder = some j
          rw [hji]
          exact hinv.owner_lock i TState.construct ht rfl
        · exact hinv.owner_lock j t' hold hh
      · intro j hj
        rcases lookup_set_cases hi
          (show (g.threads.set i TState.release)[j]? = some TState.construct from hj) with
          ⟨hji, hta⟩ | ⟨hji, hold⟩
        · exact TState.noConfusion hta
        · have h1 := hinv.owner_lock j TState.construct hold rfl
          have h2 := hinv.owner_lock i TState.construct ht rfl
          exact (hji (Option.some.inj (h1.symm.trans h2))).elim
      · intro v hv
        exact (Option.some.inj hv).symm.trans hc0
      · intro h
        exact Option.noConfusion h
      · intro _
        show g.constructions + 1 = 1
        rw [hc0]
      · show g.output ++ createdOut =
          if g.constructions + 1 = 0 then [] else createdOut
        rw [hinv.out_spec, hc0]
        simp
      · intro j hj
        rfl
      · intro j hj
        rfl
      · intro j r hj
        rcases lookup_set_cases hi
          (show (g.threads.set i TState.release)[j]? = some (TState.done r) from hj) with
          ⟨hji, hta⟩ | ⟨hji, hold⟩
        · exact TState.noConfusion hta
        · obtain ⟨hr, hsm⟩ := hinv.done_slot j r hold
          rw [hsl] at hr
          rw [hr] at hsm
          exact Bool.noConfusion hsm
      · intro j hj
        rcases lookup_set_cases hi
          (show (g.threads.set i TState.release)[j]? = some TState.failed from hj) with
          ⟨hji, hta⟩ | ⟨hji, hold⟩
        · exact TState.noConfusion hta
        · exact hinv.no_failed j hold
    | release =>
      injection hstep with hstep
      subst hstep
      refine ⟨?_, ?_, ?_, ?_, ?_, ?_, ?_, ?_, ?_, ?_, ?_, ?_⟩
      · show (g.threads.set i TState.ret).length = n
        rw [List.length_set]; exact hinv.tlen
      · intro j hLj
        exact Option.noConfusion hLj
      · intro j t' hj hh
        rcases lookup_set_cases hi
          (show (g.threads.set i TState.ret)[j]? = some t' from hj) with
          ⟨hji, hta⟩ | ⟨hji, hold⟩
        · rw [← hta] at hh
          exact Bool.noConfusion hh
        · have h1 := hinv.owner_lock j t' hold hh
          have h2 := hinv.owner_lock i TState.release ht rfl
          exact (hji (Option.some.inj (h1.symm.trans h2))).elim
      · intro j hj
        rcases lookup_set_cases hi
          (show (g.threads.set i TState.ret)[j]? = some TState.construct from hj) with
          ⟨hji, hta⟩ | ⟨hji, hold⟩
        · exact TState.noConfusion hta
        · exact hinv.construct_empty j hold
      · intro v hv
        exact hinv.slot_zero v hv
      · intro h
        exact hinv.count_none h
      · intro h
        exact hinv.count_some h
      · exact hinv.out_spec
      · intro j hj
        rcases lookup_set_cases hi
          (show (g.threads.set i TState.ret)[j]? = some TState.release from hj) with
          ⟨hji, hta⟩ | ⟨hji, hold⟩
        · exact TState.noConfusion hta
        · exact hinv.release_some j hold
      · intro j hj
        rcases lookup_set_cases hi
          (show (g.threads.set i TState.ret)[j]? = some TState.ret from hj) with
          ⟨hji, hta⟩ | ⟨hji, hold⟩
        · exact hinv.release_some i ht
        · exact hinv.ret_some j hold
      · intro j r hj
        rcases lookup_set_cases hi
          (show (g.threads.set i TState.ret)[j]? = some (TState.done r) from hj) with
          ⟨hji, hta⟩ | ⟨hji, hold⟩
        · exact TState.noConfusion hta
        · exact hinv.done_slot j r hold
      · intro j hj
        rcases lookup_set_cases hi
          (show (g.threads.set i TState.ret)[j]? = some TState.failed from hj) with
          ⟨hji, hta⟩ | ⟨hji, hold⟩
        · exact TState.noConfusion hta
        · exact hinv.no_failed j hold
    | ret =>
      injection hstep with hstep
      subst hstep
      refine ⟨?_, ?_, ?_, ?_, ?_, ?_, ?_, ?_, ?_, ?_, ?_, ?_⟩
      · show (g.threads.set i (TState.done g.slot)).length = n
        rw [List.length_set]; exact hinv.tlen
      · intro j hLj
        obtain ⟨t0, hjt0, hh⟩ := hinv.lock_owner j hLj
        by_cases hji : j = i
        · subst hji
          cases Option.some.inj (ht.symm.trans hjt0)
          exact Bool.noConfusion hh
        · exact ⟨t0, (lookup_set_other (TState.done g.slot) hi hji).trans hjt0, hh⟩
      · intro j t' hj hh
        rcases lookup_set_cases hi
          (show (g.threads.set i (TState.done g.slot))[j]? = some t' from hj) with
          ⟨hji, hta⟩ | ⟨hji, hold⟩
        · rw [← hta] at hh
          exact Bool.noConfusion hh
        · exact hinv.owner_lock j t' hold hh
      · intro j hj
        rcases lookup_set_cases hi
          (show (g.threads.set i (TState.done g.slot))[j]? = some TState.construct from hj) with
          ⟨hji, hta⟩ | ⟨hji, hold⟩
        · exact TState.noConfusion hta
        · exact hinv.construct_empty j hold
      · intro v hv
        exact hinv.slot_zero v hv
      · intro h
        exact hinv.count_none h
      · intro h
        exact hinv.count_some h
      · exact hinv.out_spec
      · intro j hj
        rcases lookup_set_cases hi
          (show (g.threads.set i (TState.done g.slot))[j]? = some TState.release from hj) with
          ⟨hji, hta⟩ | ⟨hji, hold⟩
        · exact TState.noConfusion hta
        · exact hinv.release_some j hold
      · intro j hj
        rcases lookup_set_cases hi
          (show (g.threads.set i (TState.done g.slot))[j]? = some TState.ret from hj) with
          ⟨hji, hta⟩ | ⟨hji, hold⟩
        · exact TState.noConfusion hta
        · exact hinv.ret_some j hold
      · intro j r hj
        rcases lookup_set_cases hi
          (show (g.threads.set i (TState.done g.slot))[j]? = some (TState.done r) from hj) with
          ⟨hji, hta⟩ | ⟨hji, hold⟩
        · injection hta with hr
          exact ⟨hr.symm, by rw [← hr]; exact hinv.ret_some i ht⟩
        · exact hinv.done_slot j r hold
      · intro j hj
        rcases lookup_set_cases hi
          (show (g.threads.set i (TState.done g.slot))[j]? = some TState.failed from hj) with
          ⟨hji, hta⟩ | ⟨hji, hold⟩
        · exact TState.noConfusion hta
        · exact hinv.no_failed j hold
    | done r => exact Option.noConfusion hstep
    | failed => exact Option.noConfusion hstep

theorem inv_init (n : Nat) : Inv n (initState n) := by
  have hrep : ∀ (j : Nat) (t : TState),
      (List.replicate n TState.fastCheck)[j]? = some t → t = TState.fastCheck := by
    intro j t h
    have hj : j < (List.replicate n TState.fastCheck).length :=
      lt_of_lookup _ _ _ h
    rw [List.getElem?_eq_getElem hj, List.getElem_replicate] at h
    exact (Option.some.inj h).symm
  refine ⟨?_, ?_, ?_, ?_, ?_, ?_, ?_, ?_, ?_, ?_, ?_, ?_⟩
  · exact List.length_replicate n TState.fastCheck
  · intro j hLj
    exact Option.noConfusion hLj
  · intro j t hjt hh
    cases hrep j t hjt
    exact Bool.noConfusion hh
  · intro j hj
    exact TState.noConfusion (hrep j TState.construct hj)
  · intro v hv
    exact Option.noConfusion hv
  · intro _
    rfl
  · intro h
    exact Bool.noConfusion h
  · rfl
  · intro j hj
    exact TState.noConfusion (hrep j TState.release hj)
  · intro j hj
    exact TState.noConfusion (hrep j TState.ret hj)
  · intro j r hj
    exact TState.noConfusion (hrep j (TState.done r) hj)
  · intro j hj
    exact TState.noConfusion (hrep j TState.failed hj)

theorem reachable_inv {n : Nat} {g : GState} (h : Reachable n g) : Inv n g := by
  induction h with
  | refl => exact inv_init n
  | tail _ hbc ih => exact inv_step ih hbc

theorem slot_stable {n : Nat} {g g' : GState} (hinv : Inv n g) {v : Nat}
    (hs : g.slot = some v) (hst : Step noFail g g') : g'.slot = some v := by
  obtain ⟨i, hstep⟩ := hst
  unfold threadStep at hstep
  cases ht : g.threads[i]? with
  | none => rw [ht] at hstep; exact Option.noConfusion hstep
  | some t =>
    rw [ht] at hstep
    cases t with
    | fastCheck => injection hstep with h; subst h; exact hs
    | acquire =>
      cases hl : g.lockHolder with
      | some k => rw [hl] at hstep; exact Option.noConfusion hstep
      | none => rw [hl] at hstep; injection hstep with h; subst h; exact hs
    | doubleCheck => injection hstep with h; subst h; exact hs
    | construct =>
      have hsl := hinv.construct_empty i ht
      rw [hsl] at hs
      exact Option.noConfusion hs
    | release => injection hstep with h; subst h; exact hs
    | ret => injection hstep with h; subst h; exact hs
    | done r => exact Option.noConfusion hstep
    | failed => exact Option.noConfusion hstep

theorem progress {n : Nat} {g : GState} (hinv : Inv n g) (hnd : ¬ AllDone g) :
    ∃ g', Step noFail g g' := by
  rw [AllDone] at hnd
  push_neg at hnd
  obtain ⟨j, t, hjt, hnotdone⟩ := hnd
  cases t with
  | fastCheck =>
    exact ⟨_, j, by unfold threadStep; rw [hjt]⟩
  | acquire =>
    cases hl : g.lockHolder with
    | none =>
      exact ⟨_, j, by unfold threadStep; rw [hjt, hl]⟩
    | some k =>
      obtain ⟨tk, hktk, hh⟩ := hinv.lock_owner k hl
      cases tk with
      | doubleCheck => exact ⟨_, k, by unfold threadStep; rw [hktk]⟩
      | construct =>
        refine Exists.intro { g with slot := some g.constructions, constructions := g.constructions + 1, output := g.output ++ createdOut, threads := g.threads.set k TState.release } ⟨k, ?_⟩
        unfold threadStep
        rw [hktk, if_neg (fun h : noFail k = true => Bool.noConfusion h)]
      | release => exact ⟨_, k, by unfold threadStep; rw [hktk]⟩
      | fastCheck => exact Bool.noConfusion hh
      | acquire => exact Bool.noConfusion hh
      | ret => exact Bool.noConfusion hh
      | done r => exact Bool.noConfusion hh
      | failed => exact Bool.noConfusion hh
  | doubleCheck =>
    exact ⟨_, j, by unfold threadStep; rw [hjt]⟩
  | construct =>
    refine Exists.intro { g with slot := some g.constructions, constructions := g.constructions + 1, output := g.output ++ createdOut, threads := g.threads.set j TState.release } ⟨j, ?_⟩
    unfold threadStep
    rw [hjt, if_neg (fun h : noFail j = true => Bool.noConfusion h)]
  | release =>
    exact ⟨_, j, by unfold threadStep; rw [hjt]⟩
  | ret =>
    exact ⟨_, j, by unfold threadStep; rw [hjt]⟩
  | done r =>
    exact (hnotdone r rfl).elim
  | failed =>
    exact (hinv.no_failed j hjt).elim

theorem rankSum_set_lt (l : List TState) (i : Nat) (a t : TState)
    (ht : l[i]? = some t) (hlt : rank a < rank t) :
    ((l.set i a).map rank).sum < (l.map rank).sum := by
  induction l generalizing i with
  | nil => exact Option.noConfusion ht
  | cons hd tl ih =>
    cases i with
    | zero =>
      rw [List.getElem?_cons_zero] at ht
      cases Option.some.inj ht
      simp only [List.set, List.map_cons, List.sum_cons]
      exact Nat.add_lt_add_right hlt _
    | succ i2 =>
      rw [List.getElem?_cons_succ] at ht
      simp only [List.set, List.map_cons, List.sum_cons]
      exact Nat.add_lt_add_left (ih i2 ht) _

theorem step_rank {failAt : Nat → Bool} {g g' : GState} (hst : Step failAt g g') :
    rankSum g' < rankSum g := by
  obtain ⟨i, hstep⟩ := hst
  unfold threadStep at hstep
  cases ht : g.threads[i]? with
  | none => rw [ht] at hstep; exact Option.noConfusion hstep
  | some t =>
    rw [ht] at hstep
    cases t with
    | fastCheck =>
      injection hstep with h
      subst h
      refine rankSum_set_lt g.threads i _ _ ht ?_
      by_cases hs : g.slot.isSome = true
      · rw [if_pos hs]; decide
      · rw [if_neg hs]; decide
    | acquire =>
      cases hl : g.lockHolder with
      | some k => rw [hl] at hstep; exact Option.noConfusion hstep
      | none =>
        rw [hl] at hstep
        injection hstep with h
        subst h
        exact rankSum_set_lt g.threads i _ _ ht (by decide)
    | doubleCheck =>
      injection hstep with h
      subst h
      refine rankSum_set_lt g.threads i _ _ ht ?_
      by_cases hs : g.slot.isSome = true
      · rw [if_pos hs]; decide
      · rw [if_neg hs]; decide
    | construct =>
      by_cases hf : failAt i = true
      · rw [if_pos hf] at hstep
        injection hstep with h
        subst h
        exact rankSum_set_lt g.threads i _ _ ht (by decide)
      · rw [if_neg hf] at hstep
        injection hstep with h
        subst h
        exact rankSum_set_lt g.threads i _ _ ht (by decide)
    | release =>
      injection hstep with h
      subst h
      exact rankSum_set_lt g.threads i _ _ ht (by decide)
    | ret =>
      injection hstep with h
      subst h
      exact rankSum_set_lt g.threads i _ _ ht Nat.zero_lt_one
    | done r => exact Option.noConfusion hstep
    | failed => exact Option.noConfusion hstep

theorem reach_ws1 : Reachable 2 ws1 := by
  exact Relation.ReflTransGen.tail Relation.ReflTransGen.refl ⟨0, by decide⟩

theorem reach_ws2 : Reachable 2 ws2 := by
  exact Relation.ReflTransGen.tail reach_ws1 ⟨0, by decide⟩

theorem reach_ws3 : Reachable 2 ws3 := by
  exact Relation.ReflTransGen.tail reach_ws2 ⟨0, by decide⟩

theorem reach_ws4 : Reachable 2 ws4 := by
  exact Relation.ReflTransGen.tail reach_ws3 ⟨0, by decide⟩

theorem reach_ws5 : Reachable 2 ws5 := by
  exact Relation.ReflTransGen.tail reach_ws4 ⟨0, by decide⟩

theorem reach_ws6 : Reachable 2 ws6 := by
  exact Relation.ReflTransGen.tail reach_ws5 ⟨0, by decide⟩

theorem reach_ws7 : Reachable 2 ws7 := by
  exact Relation.ReflTransGen.tail reach_ws6 ⟨1, by decide⟩

theorem reach_ws8 : Reachable 2 ws8 := by
  exact Relation.ReflTransGen.tail reach_ws7 ⟨1, by decide⟩

/-- C1: under arbitrary interleavings of `n ≥ 2` concurrent first-time callers
of `Logger::getLogger`, the `Logger` constructor runs at most once in every
reachable state and exactly once when all callers have returned, every caller
then holds a pointer to that same single instance, every non-final state can
step (no caller gets stuck), and every step decreases a finite measure (so
every caller eventually returns). -/
theorem getLogger_single_construction (n : Nat) (hn : 2 ≤ n) (g : GState)
    (hr : Reachable n g) :
    g.constructions ≤ 1 ∧
    (AllDone g → g.constructions = 1 ∧
      ∃ v : Nat, ∀ j : Nat, j < n → g.threads[j]? = some (TState.done (some v))) ∧
    (¬ AllDone g → ∃ g', Step noFail g g') ∧
    (∀ g', Step noFail g g' → rankSum g' < rankSum g) := by
  have hinv := reachable_inv hr
  refine ⟨?_, ?_, fun hnd => progress hinv hnd, fun g' hst => step_rank hst⟩
  · cases hs : g.slot with
    | none => rw [hinv.count_none hs]; exact Nat.zero_le 1
    | some v => rw [hinv.count_some (by rw [hs]; rfl)]
  · intro had
    have h0 : (0 : Nat) < g.threads.length := by
      rw [hinv.tlen]; omega
    obtain ⟨r0, hr0⟩ := had 0 _ (List.getElem?_eq_getElem h0)
    have hd0 : g.threads[0]? = some (TState.done r0) := by
      rw [List.getElem?_eq_getElem h0, hr0]
    obtain ⟨hre, hrs⟩ := hinv.done_slot 0 r0 hd0
    cases hsl : g.slot with
    | none =>
      rw [hsl] at hre
      rw [hre] at hrs
      exact Bool.noConfusion hrs
    | some w =>
      cases hinv.slot_zero w hsl
      refine ⟨hinv.count_some (by rw [hsl]; rfl), 0, ?_⟩
      intro j hj
      have hjlen : j < g.threads.length := by rw [hinv.tlen]; exact hj
      obtain ⟨rj, hrj⟩ := had j _ (List.getElem?_eq_getElem hjlen)
      have hdj : g.threads[j]? = some (TState.done rj) := by
        rw [List.getElem?_eq_getElem hjlen, hrj]
      obtain ⟨hrje, _⟩ := hinv.done_slot j rj hdj
      rw [hdj, hrje, hsl]

theorem getLogger_single_construction_witness :
    ws8.constructions ≤ 1 ∧
    (AllDone ws8 → ws8.constructions = 1 ∧
      ∃ v : Nat, ∀ j : Nat, j < 2 → ws8.threads[j]? = some (TState.done (some v))) ∧
    (¬ AllDone ws8 → ∃ g', Step noFail ws8 g') ∧
    (∀ g', Step noFail ws8 g' → rankSum g' < rankSum ws8) :=
  getLogger_single_construction 2 (by decide) ws8 reach_ws8

/-- C2: once the slot `Logger::loggerInstance` holds a non-null pointer, no
step of any thread ever changes it, and any two returned calls (from any
threads) hold identity-equal pointers. -/
theorem slot_identity_stable (n : Nat) (g g' : GState) (v : Nat)
    (hr : Reachable n g) :
    (g.slot = some v → Step noFail g g' → g'.slot = some v) ∧
    (∀ (i j : Nat) (ri rj : Option Nat),
      g.threads[i]? = some (TState.done ri) →
      g.threads[j]? = some (TState.done rj) → ri = rj) := by
  have hinv := reachable_inv hr
  refine ⟨fun hs hst => slot_stable hinv hs hst, ?_⟩
  intro i j ri rj hi hj
  exact (hinv.done_slot i ri hi).1.trans (hinv.done_slot j rj hj).1.symm

theorem slot_identity_stable_witness :
    (ws4.slot = some 0 → Step noFail ws4 ws5 → ws5.slot = some 0) ∧
    (∀ (i j : Nat) (ri rj : Option Nat),
      ws4.threads[i]? = some (TState.done ri) →
      ws4.threads[j]? = some (TState.done rj) → ri = rj) :=
  slot_identity_stable 2 ws4 ws5 0 reach_ws4

/-- C5: a thread at the locked double check that finds the slot non-null
moves to the unlock, releases the mutex and returns the existing pointer;
the construction counter never changes along the way (the constructor does
not run a second time) and nothing further is printed. -/
theorem double_check_returns_existing (g : GState) (i v : Nat)
    (hdc : g.threads[i]? = some TState.doubleCheck)
    (hs : g.slot = some v) (hl : g.lockHolder = some i) :
    ∃ g1 g2 g3,
      threadStep noFail g i = some g1 ∧
      g1.threads[i]? = some TState.release ∧
      g1.slot = g.slot ∧
      g1.constructions = g.constructions ∧
      g1.output = g.output ∧
      g1.lockHolder = some i ∧
      threadStep noFail g1 i = some g2 ∧
      g2.threads[i]? = some TState.ret ∧
      g2.lockHolder = none ∧
      g2.slot = g.slot ∧
      g2.constructions = g.constructions ∧
      threadStep noFail g2 i = some g3 ∧
      g3.threads[i]? = some (TState.done (some v)) ∧
      g3.constructions = g.constructions ∧
      g3.output = g.output := by
  have hi : i < g.threads.length := lt_of_lookup _ _ _ hdc
  have hi2 : i < (g.threads.set i TState.release).length := by
    rw [List.length_set]; exact hi
  have hi3 : i < ((g.threads.set i TState.release).set i TState.ret).length := by
    rw [List.length_set, List.length_set]; exact hi
  have h1 : threadStep noFail g i =
      some { g with threads := g.threads.set i TState.release } := by
    unfold threadStep
    rw [hdc, hs]
    rfl
  have h2 : threadStep noFail { g with threads := g.threads.set i TState.release } i =
      some { g with lockHolder := none, threads := (g.threads.set i TState.release).set i TState.ret } := by
    unfold threadStep
    dsimp only
    rw [lookup_set_self TState.release hi]
  have h3 : threadStep noFail { g with lockHolder := none, threads := (g.threads.set i TState.release).set i TState.ret } i =
      some { g with lockHolder := none, threads := ((g.threads.set i TState.release).set i TState.ret).set i (TState.done g.slot) } := by
    unfold threadStep
    dsimp only
    rw [lookup_set_self TState.ret hi2]
  refine ⟨_, _, _, h1, lookup_set_self TState.release hi, rfl, rfl, rfl, hl,
    h2, lookup_set_self TState.ret hi2, rfl, rfl, rfl, h3, ?_, rfl, rfl⟩
  rw [← hs]
  exact lookup_set_self (TState.done g.slot) hi3

theorem double_check_returns_existing_witness :
    ∃ g1 g2 g3,
      threadStep noFail dcState 0 = some g1 ∧
      g1.threads[0]? = some TState.release ∧
      g1.slot = dcState.slot ∧
      g1.constructions = dcState.constructions ∧
      g1.output = dcState.output ∧
      g1.lockHolder = some 0 ∧
      threadStep noFail g1 0 = some g2 ∧
      g2.threads[0]? = some TState.ret ∧
      g2.lockHolder = none ∧
      g2.slot = dcState.slot ∧
      g2.constructions = dcState.constructions ∧
      threadStep noFail g2 0 = some g3 ∧
      g3.threads[0]? = some (TState.done (some 0)) ∧
      g3.constructions = dcState.constructions ∧
      g3.output = dcState.output :=
  double_check_returns_existing dcState 0 0 (by decide) (by decide) (by decide)

/-- C6: a thread entering `getLogger` while the slot is already non-null takes
the fast path: its first step is always enabled (it never blocks, whoever
holds the mutex), it moves straight to the return without touching the mutex,
and it returns the existing pointer with nothing printed and nothing
constructed. -/
theorem fast_path_no_lock (g : GState) (i v : Nat)
    (hfc : g.threads[i]? = some TState.fastCheck) (hs : g.slot = some v) :
    ∃ g1 g2,
      threadStep noFail g i = some g1 ∧
      g1.threads[i]? = some TState.ret ∧
      g1.lockHolder = g.lockHolder ∧
      g1.slot = g.slot ∧
      g1.constructions = g.constructions ∧
      g1.output = g.output ∧
      threadStep noFail g1 i = some g2 ∧
      g2.threads[i]? = some (TState.done (some v)) ∧
      g2.lockHolder = g.lockHolder ∧
      g2.constructions = g.constructions ∧
      g2.output = g.output := by
  have hi : i < g.threads.length := lt_of_lookup _ _ _ hfc
  have hi2 : i < (g.threads.set i TState.ret).length := by
    rw [List.length_set]; exact hi
  have h1 : threadStep noFail g i =
      some { g with threads := g.threads.set i TState.ret } := by
    unfold threadStep
    rw [hfc, hs]
    rfl
  have h2 : threadStep noFail { g with threads := g.threads.set i TState.ret } i =
      some { g with threads := (g.threads.set i TState.ret).set i (TState.done g.slot) } := by
    unfold threadStep
    dsimp only
    rw [lookup_set_self TState.ret hi]
  refine ⟨_, _, h1, lookup_set_self TState.ret hi, rfl, rfl, rfl, rfl,
    h2, ?_, rfl, rfl, rfl⟩
  rw [← hs]
  exact lookup_set_self (TState.done g.slot) hi2

theorem fast_path_no_lock_witness :
    ∃ g1 g2,
      threadStep noFail fcState 0 = some g1 ∧
      g1.threads[0]? = some TState.ret ∧
      g1.lockHolder = fcState.lockHolder ∧
      g1.slot = fcState.slot ∧
      g1.constructions = fcState.constructions ∧
      g1.output = fcState.output ∧
      threadStep noFail g1 0 = some g2 ∧
      g2.threads[0]? = some (TState.done (some 0)) ∧
      g2.lockHolder = fcState.lockHolder ∧
      g2.constructions = fcState.constructions ∧
      g2.output = fcState.output :=
  fast_path_no_lock fcState 0 0 (by decide) (by decide)

/-- C7: in every reachable state of the no-failure model (the constructor
always completes, as in the source), every returned `getLogger` call holds a
non-null pointer. -/
theorem getLogger_returns_nonnull (n : Nat) (g : GState) (i : Nat)
    (r : Option Nat) (hr : Reachable n g)
    (hd : g.threads[i]? = some (TState.done r)) : ∃ v, r = some v := by
  have hinv := reachable_inv hr
  exact Option.isSome_iff_exists.mp (hinv.done_slot i r hd).2

theorem getLogger_returns_nonnull_witness : ∃ v, (some 0 : Option Nat) = some v :=
  getLogger_returns_nonnull 2 ws8 0 (some 0) reach_ws8 (by decide)

theorem reach_fs1 : ReachableF fs1 := by
  exact Relation.ReflTransGen.tail Relation.ReflTransGen.refl ⟨0, by decide⟩

theorem reach_fs2 : ReachableF fs2 := by
  exact Relation.ReflTransGen.tail reach_fs1 ⟨0, by decide⟩

theorem reach_fs3 : ReachableF fs3 := by
  exact Relation.ReflTransGen.tail reach_fs2 ⟨0, by decide⟩

theorem reach_fs4 : ReachableF fs4 := by
  exact Relation.ReflTransGen.tail reach_fs3 ⟨0, by decide⟩

theorem reach_fs5 : ReachableF fs5 := by
  exact Relation.ReflTransGen.tail reach_fs4 ⟨1, by decide⟩

theorem fs5_stuck : ∀ i : Nat, threadStep failAtZero fs5 i = none := by
  intro i
  match i with
  | 0 => rfl
  | 1 => rfl
  | (k + 2) => rfl

/-- C4 is refuted on its lock-release part: when `new Logger()` throws during
the first call, the exception escapes `getLogger` before `mtx.unlock()`
(logger.cpp line 23) runs.  In the reachable state `fs5` the slot is still
empty (that part of the claim holds) but the mutex is still held by the
failed thread 0, no thread can take any further step, and in every state
reachable from `fs5` the mutex is still held and the slot still empty: the
lock is never released. -/
theorem construction_failure_keeps_lock :
    ReachableF fs5 ∧
    fs5.slot = none ∧
    fs5.lockHolder = some 0 ∧
    (∀ i : Nat, threadStep failAtZero fs5 i = none) ∧
    (∀ g', Relation.ReflTransGen (Step failAtZero) fs5 g' →
      g'.lockHolder = some 0 ∧ g'.slot = none) := by
  have hfix : ∀ g', Relation.ReflTransGen (Step failAtZero) fs5 g' → g' = fs5 := by
    intro g' hg
    induction hg with
    | refl => rfl
    | tail _ hbc ih =>
      rw [ih] at hbc
      obtain ⟨i, hi⟩ := hbc
      rw [fs5_stuck i] at hi
      exact Option.noConfusion hi
  refine ⟨reach_fs5, rfl, rfl, fs5_stuck, ?_⟩
  intro g' hg
  rw [hfix g' hg]
  exact ⟨rfl, rfl⟩

/-- C3 is refuted: `loggerInstance` is a plain non-atomic pointer
(logger.hpp line 10) and the fast-path read (logger.cpp line 17) takes no
lock, so the publishing store in `loggerInstance = new Logger()` has no
release/acquire pairing with the fast-path read.  In the weak-memory model
this admits the execution `wBadTrace` in which the pointer store propagates
to the reader before the constructor's effects: the reader's unlocked check
observes a non-null slot (`ptrVisible = true`) while the constructor is not
yet visible to it (`readerObs = some false`), i.e. partial-construction
visibility. -/
theorem unsynchronized_publish_partial_visibility :
    runW wInit wBadTrace = some wBadFinal ∧
    wBadFinal.ptrVisible = true ∧
    wBadFinal.readerObs = some false ∧
    wBadFinal.writerPC = 2 := by
  exact ⟨rfl, rfl, rfl, rfl⟩

theorem isShuffle_self_left (as : List Char) : isShuffle as [] as = true := by
  induction as with
  | nil => rfl
  | cons a as2 ih => simp [isShuffle, ih]

theorem isShuffle_prepend_right (as bs out pre : List Char)
    (h : isShuffle as bs out = true) :
    isShuffle as (pre ++ bs) (pre ++ out) = true := by
  induction pre with
  | nil => simpa using h
  | cons p pre2 ih => simp [isShuffle, ih]

theorem isShuffle_cons_left (a : Char) (as bs out : List Char)
    (h : isShuffle as bs out = true) :
    isShuffle (a :: as) bs (a :: out) = true := by
  simp [isShuffle, h]

theorem badOut_shuffle : isShuffle (logChars msg1) (logChars msg2) badOut = true := by
  have h1 : isShuffle ("essage from user1\n".data) [] ("essage from user1\n".data)
      = true := isShuffle_self_left _
  have h2 := isShuffle_prepend_right _ _ _ (logChars msg2) h1
  rw [List.append_nil] at h2
  have h3 := isShuffle_cons_left 'm' _ _ _ h2
  have he : logChars msg1 = 'm' :: "essage from user1\n".data := by decide
  rw [he]
  exact h3

/-- C8 is refuted as stated: `badOut` is a possible output of the
unsynchronised shared channel when the two threads of src/singleton/user.cpp
emit their messages concurrently (it is a character shuffle of the two
emissions), yet the string "message from user1" does not appear contiguously
in it — the messages are interleaved mid-word. -/
theorem two_logs_can_interleave :
    isShuffle (logChars msg1) (logChars msg2) badOut = true ∧
    hasSeg msg1.data badOut = false := by
  refine ⟨badOut_shuffle, ?_⟩
  decide

theorem isShuffle_nil_out (as bs : List Char) :
    isShuffle as bs [] = (as.isEmpty && bs.isEmpty) := rfl

theorem isShuffle_cons_out (as bs : List Char) (c : Char) (cs : List Char) :
    isShuffle as bs (c :: cs) =
      ((match as with
        | [] => false
        | a :: as2 => a == c && isShuffle as2 bs cs) ||
       (match bs with
        | [] => false
        | b :: bs2 => b == c && isShuffle as bs2 cs)) := by
  cases as <;> cases bs <;> rfl

theorem isShuffle_sublist (out : List Char) : ∀ as bs : List Char,
    isShuffle as bs out = true →
    as.Sublist out ∧ bs.Sublist out ∧ out.length = as.length + bs.length := by
  induction out with
  | nil =>
    intro as bs h
    rw [isShuffle_nil_out, Bool.and_eq_true, List.isEmpty_iff, List.isEmpty_iff] at h
    obtain ⟨ha, hb⟩ := h
    subst ha
    subst hb
    exact ⟨List.Sublist.refl _, List.Sublist.refl _, rfl⟩
  | cons c cs ih =>
    intro as bs h
    rw [isShuffle_cons_out, Bool.or_eq_true] at h
    rcases h with h1 | h1
    · cases as with
      | nil => exact Bool.noConfusion h1
      | cons a as2 =>
        have h3 : (a == c && isShuffle as2 bs cs) = true := h1
        rw [Bool.and_eq_true] at h3
        obtain ⟨hac, hrec⟩ := h3
        cases beq_iff_eq.mp hac
        obtain ⟨s1, s2, hlen⟩ := ih as2 bs hrec
        refine ⟨s1.cons₂ c, s2.cons c, ?_⟩
        simp only [List.length_cons, hlen]
        omega
    · cases bs with
      | nil => exact Bool.noConfusion h1
      | cons b bs2 =>
        have h3 : (b == c && isShuffle as bs2 cs) = true := h1
        rw [Bool.and_eq_true] at h3
        obtain ⟨hbc, hrec⟩ := h3
        cases beq_iff_eq.mp hbc
        obtain ⟨s1, s2, hlen⟩ := ih as bs2 hrec
        refine ⟨s1.cons c, s2.cons₂ c, ?_⟩
        simp only [List.length_cons, hlen]
        omega

/-- C8 amended: every output the unsynchronised channel can produce for the
two concurrent `Log` calls is a character shuffle of the two emitted
sequences: all characters of "message from user1\n" and of
"message from user2\n" appear, each sequence in its own order (in either
relative order between the threads), and nothing else is written — but a
message need not appear contiguously. -/
theorem two_logs_shuffle_complete (out : List Char)
    (h : isShuffle (logChars msg1) (logChars msg2) out = true) :
    (logChars msg1).Sublist out ∧ (logChars msg2).Sublist out ∧
    out.length = (logChars msg1).length + (logChars msg2).length :=
  isShuffle_sublist out _ _ h

theorem two_logs_shuffle_complete_witness :
    (logChars msg1).Sublist badOut ∧ (logChars msg2).Sublist badOut ∧
    badOut.length = (logChars msg1).length + (logChars msg2).length :=
  two_logs_shuffle_complete badOut badOut_shuffle

theorem emitRun_append (cs : List Char) : ∀ channel : List Char,
    emitRun cs channel = channel ++ cs := by
  induction cs with
  | nil => intro ch; simp [emitRun]
  | cons c cs2 ih =>
    intro ch
    show emitRun cs2 (ch ++ [c]) = ch ++ c :: cs2
    rw [ih (ch ++ [c])]
    simp

/-- C9: `Logger::Log(m)` appends to the output channel exactly the characters
of `m` followed by one line terminator, and returns nothing. -/
theorem log_writes_message_newline (m : String) (channel : List Char) :
    (LogFn m channel).1 = channel ++ (m.data ++ ['\n']) ∧
    (LogFn m channel).2 = () := by
  constructor
  · show emitRun (logChars m) channel = channel ++ (m.data ++ ['\n'])
    rw [emitRun_append]
    rfl
  · rfl

/-- C10: a `getLogger` call on an empty slot (the first call) constructs the
instance and appends exactly the constructor's output — "New instance
created." plus a line break — to standard output; a call on a non-empty slot
changes nothing (in particular prints nothing), so every call after the
first prints nothing. -/
theorem first_call_prints_creation (s : SState) :
    (s.slot = none →
      (getLoggerFn s).1.output = s.output ++ createdOut ∧
      (getLoggerFn s).1.slot = some s.constructions) ∧
    (∀ v : Nat, s.slot = some v → (getLoggerFn s).1 = s) ∧
    (getLoggerFn ((getLoggerFn s).1)).1.output = (getLoggerFn s).1.output := by
  cases hsl : s.slot with
  | none =>
    have hfn : (getLoggerFn s).1 =
        { slot := some s.constructions, constructions := s.constructions + 1, output := s.output ++ createdOut } := by
      simp [getLoggerFn, hsl]
    refine ⟨fun _ => ⟨by rw [hfn], by rw [hfn]⟩, fun v hv => Option.noConfusion hv, ?_⟩
    rw [hfn]
    simp [getLoggerFn]
  | some v =>
    have hfn : (getLoggerFn s).1 = s := by
      simp [getLoggerFn, hsl]
    refine ⟨fun h0 => Option.noConfusion h0, fun v2 hv2 => hfn, ?_⟩
    rw [hfn, hfn]

theorem first_call_prints_creation_witness :
    (sInit.slot = none →
      (getLoggerFn sInit).1.output = sInit.output ++ createdOut ∧
      (getLoggerFn sInit).1.slot = some sInit.constructions) ∧
    (∀ v : Nat, sInit.slot = some v → (getLoggerFn sInit).1 = sInit) ∧
    (getLoggerFn ((getLoggerFn sInit).1)).1.output = (getLoggerFn sInit).1.output :=
  first_call_prints_creation sInit

end Singleton
